import Mathlib

/-!
Verification of the paila code-review SDK core against its specification.

This file gives a shallow embedding, in Lean 4, of the data model and the
operations of the paila static-analysis engine (src/paila/models.py,
src/paila/reviewer.py, src/paila/analyzers/complexity.py,
src/paila/analyzers/security.py, src/paila/rules/base.py), and proves or
refutes the specification claims about them.

Conventions of the embedding:
* Python machine integers are modelled as Nat / Int (Python integers are
  unbounded, so no wrap-around modelling is needed).
* Python floats that the claims touch are modelled as rationals; the only
  float operation used by the relevant code is round(x, 2), modelled by
  roundTo2 below.
* Fallible Python code (functions that may raise) is modelled with Except;
  code that catches exceptions pattern-matches on the Except value.
* The Python ast module is external to the repository: parsing is modelled
  as an abstract function String -> Option PyNode, and the AST node shapes
  that the repository inspects are modelled by the PyNode / PyKind types.
* Python dicts built by the aggregation code are modelled as functions with
  a default value (for counters) or an Option codomain (for maps); dict
  equality in Python ignores insertion order, matching function equality.
-/

namespace Paila

/-- Severity enum from src/paila/models.py (class Severity). -/
inductive Severity where
  | critical
  | high
  | medium
  | low
  | info
deriving DecidableEq, Repr

/-- The string value of a Severity member (Severity is a str-Enum in the
source, so member.value is the lowercase name). -/
def Severity.value : Severity → String
  | .critical => "critical"
  | .high => "high"
  | .medium => "medium"
  | .low => "low"
  | .info => "info"

/-- The severity_order dict of Reviewer._filter_by_severity
(src/paila/reviewer.py lines 246-252): urgency rank, 0 = most urgent. -/
def Severity.level : Severity → Nat
  | .critical => 0
  | .high => 1
  | .medium => 2
  | .low => 3
  | .info => 4

/-- The severity_deductions dict of FileResult.score
(src/paila/models.py lines 219-225). -/
def Severity.deduction : Severity → Int
  | .critical => 15
  | .high => 10
  | .medium => 5
  | .low => 2
  | .info => 0

/-- Values stored in an Issue metadata dict (the source stores numbers,
strings and booleans there). -/
inductive MetaVal where
  | nat (n : Nat)
  | str (s : String)
  | bool (b : Bool)
deriving DecidableEq, Repr

/-- Issue dataclass from src/paila/models.py. The ai_explanation / ai_fix
fields (always None in the analysis core) are omitted; the metadata dict is
modelled as an association list. -/
structure Issue where
  type : String
  severity : Severity
  file : String
  line : Nat
  message : String
  code : String := ""
  column : Nat := 0
  endLine : Option Nat := none
  endColumn : Option Nat := none
  suggestion : String := ""
  rule : String := ""
  metadata : List (String × MetaVal) := []
deriving DecidableEq, Repr

/-- Python round(x, 2) on the rational model of a float. Python rounds
half-to-even on binary floats; no value in any claim sits on a tie, so the
tie-breaking direction chosen here is immaterial. -/
def roundTo2 (q : ℚ) : ℚ :=
  (⌊q * 100 + 1 / 2⌋ : ℚ) / 100

/-- Metrics dataclass from src/paila/models.py with its field defaults. -/
structure Metrics where
  linesOfCode : Nat := 0
  totalLines : Nat := 0
  blankLines : Nat := 0
  commentLines : Nat := 0
  functions : Nat := 0
  classes : Nat := 0
  avgComplexity : ℚ := 0
  maxComplexity : Nat := 0
  maintainabilityIndex : ℚ := 100
  commentRatio : ℚ := 0
  duplicationRatio : ℚ := 0
deriving DecidableEq, Repr

/-- FileResult dataclass from src/paila/models.py. -/
structure FileResult where
  file : String
  issues : List Issue := []
  metrics : Option Metrics := none
  skipped : Bool := false
  error : Option String := none
deriving DecidableEq, Repr

/-- FileResult.score (src/paila/models.py lines 216-228): start at 100,
subtract the deduction of each issue severity, clamp to [0, 100]. -/
def FileResult.score (r : FileResult) : Int :=
  let s := r.issues.foldl (fun acc i => acc - i.severity.deduction) 100
  max 0 (min 100 s)

/-- FileResult.grade (src/paila/models.py lines 230-243); the source binds
score = self.score once and then branches on the thresholds. -/
def FileResult.grade (r : FileResult) : String :=
  if r.score ≥ 90 then "A"
  else if r.score ≥ 80 then "B"
  else if r.score ≥ 70 then "C"
  else if r.score ≥ 60 then "D"
  else "F"

theorem foldl_sub_eq (d : Issue → Int) (l : List Issue) (c : Int) :
    l.foldl (fun acc i => acc - d i) c = c - (l.map d).sum := by
  induction l generalizing c with
  | nil => simp
  | cons x xs ih =>
    simp only [List.foldl_cons, List.map_cons, List.sum_cons, ih]
    ring

/-- C2: FileResult.score equals 100 minus the sum of the severity weights of
its issues, clamped to [0, 100], with weights critical=15, high=10,
medium=5, low=2, info=0; and the grade letter is determined by the fixed
thresholds 90 / 80 / 70 / 60 exactly as the claim states. -/
theorem score_and_grade_spec (r : FileResult) :
    r.score = max 0 (min 100 (100 - (r.issues.map (fun i => i.severity.deduction)).sum)) ∧
    (Severity.deduction .critical = 15 ∧ Severity.deduction .high = 10 ∧
      Severity.deduction .medium = 5 ∧ Severity.deduction .low = 2 ∧
      Severity.deduction .info = 0) ∧
    (r.grade = "A" ↔ 90 ≤ r.score) ∧
    (r.grade = "B" ↔ 80 ≤ r.score ∧ r.score < 90) ∧
    (r.grade = "C" ↔ 70 ≤ r.score ∧ r.score < 80) ∧
    (r.grade = "D" ↔ 60 ≤ r.score ∧ r.score < 70) ∧
    (r.grade = "F" ↔ r.score < 60) := by
  refine ⟨?_, ⟨rfl, rfl, rfl, rfl, rfl⟩, ?_, ?_, ?_, ?_, ?_⟩
  · unfold FileResult.score
    rw [foldl_sub_eq]
  all_goals
    unfold FileResult.grade
    split <;> rename_i h₁
    · simp_all <;> omega
    all_goals
      split <;> rename_i h₂
      · simp_all <;> omega
      all_goals
        split <;> rename_i h₃
        · simp_all <;> omega
        all_goals
          split <;> rename_i h₄ <;> simp_all <;> omega

/-- Reviewer._filter_by_severity (src/paila/reviewer.py lines 244-259),
with the configured minimum severity already resolved to a Severity member
(Config.__post_init__ validates the configured name against the five valid
severities). -/
def filterBySeverity (minSeverity : Severity) (issues : List Issue) : List Issue :=
  issues.filter (fun i => i.severity.level ≤ minSeverity.level)

/-- C4: for every configured minimum severity S, the filtered list keeps
exactly the issues whose severity is at urgency at least S under the total
order critical > high > medium > low > info (lower level number = more
urgent): an issue survives iff it was present and its level is at most the
level of S. -/
theorem filterBySeverity_spec (minSeverity : Severity) (issues : List Issue) :
    ∀ i : Issue, i ∈ filterBySeverity minSeverity issues ↔
      i ∈ issues ∧ i.severity.level ≤ minSeverity.level := by
  intro i
  simp [filterBySeverity]

/-- Configuration (src/paila/config.py, class Config): the options that the
analysis core reads, with their source defaults. The configured
min_severity string is resolved to a Severity member
(Config.__post_init__ rejects any name that is not one of the five). -/
structure Config where
  minSeverity : Severity := .info
  maxComplexity : Nat := 10
  maxNestingDepth : Nat := 4
  maxFunctionLines : Nat := 50
  maxFileLines : Nat := 500
  maxLineLength : Nat := 120
  maxParameters : Nat := 5
  ignorePaths : List String := ["node_modules/", ".git/", "__pycache__/",
    ".venv/", "venv/", "env/", ".env/", "dist/", "build/", ".eggs/",
    "*.egg-info/", ".tox/", ".pytest_cache/", ".mypy_cache/", ".coverage",
    "htmlcov/"]
  ignoreFiles : List String := ["*.pyc", "*.pyo", "*.so", "*.dll", "*.exe",
    "*.log", "*.lock", "*.min.js", "*.min.css"]
  verbose : Bool := false
deriving DecidableEq, Repr

/-- The fields of a Python ast.arguments node that the repository inspects:
parameter names by group (positional-only before a slash marker,
positional-or-keyword, *args, keyword-only, **kwargs). -/
structure PyArguments where
  posonlyargs : List String := []
  args : List String := []
  vararg : Option String := none
  kwonlyargs : List String := []
  kwarg : Option String := none
deriving DecidableEq, Repr

/-- The fields of a Python ast.FunctionDef / AsyncFunctionDef node that the
repository reads besides its children: name, location, end line, argument
groups, and the span of a leading docstring (lineno and end_lineno of
body[0] when body[0] is an Expr holding a string constant). -/
structure PyFuncInfo where
  name : String
  args : PyArguments := {}
  lineno : Nat := 1
  colOffset : Nat := 0
  endLineno : Option Nat := none
  docstringSpan : Option (Nat × Option Nat) := none
deriving DecidableEq, Repr

/-- The ast node kinds that the analysis code distinguishes; every other
node kind is collapsed to `other`. A BoolOp node carries the length of its
values list, a comprehension clause carries the length of its ifs list. -/
inductive PyKind where
  | ifStmt
  | ifExp
  | forStmt
  | asyncFor
  | whileStmt
  | exceptHandler
  | withStmt
  | asyncWith
  | tryStmt
  | boolOp (numValues : Nat)
  | comprehension (numIfs : Nat)
  | assertStmt
  | functionDef (info : PyFuncInfo)
  | asyncFunctionDef (info : PyFuncInfo)
  | classDef (name : String) (lineno : Nat) (colOffset : Nat)
  | other
deriving DecidableEq, Repr

/-- A Python syntax-tree node: a kind plus the children enumerated by
ast.iter_child_nodes. -/
inductive PyNode where
  | node (kind : PyKind) (children : List PyNode)

/-- Kind accessor of a node. -/
def PyNode.kind : PyNode → PyKind
  | .node k _ => k

/-- Children accessor of a node. -/
def PyNode.children : PyNode → List PyNode
  | .node _ cs => cs

mutual
/-- ast.walk(node): the node itself and all of its descendants. The Python
generator yields in breadth-first order; every use in the analysed code is
an order-insensitive count or maximum, so pre-order is used here. -/
def walk : PyNode → List PyNode
  | .node k cs => .node k cs :: walkAll cs

/-- walk applied to each node of a list, concatenated. -/
def walkAll : List PyNode → List PyNode
  | [] => []
  | c :: cs => walk c ++ walkAll cs
end

/-- Per-node contribution counted by
ComplexityAnalyzer._calculate_complexity
(src/paila/analyzers/complexity.py lines 193-217): If/IfExp, For/AsyncFor,
While, ExceptHandler, With/AsyncWith each 1, BoolOp len(values)-1,
comprehension len(ifs), Assert 1; everything else 0. -/
def analyzerPoints : PyKind → Nat
  | .ifStmt => 1
  | .ifExp => 1
  | .forStmt => 1
  | .asyncFor => 1
  | .whileStmt => 1
  | .exceptHandler => 1
  | .withStmt => 1
  | .asyncWith => 1
  | .boolOp n => n - 1
  | .comprehension k => k
  | .assertStmt => 1
  | _ => 0

/-- Per-node contribution counted by
Reviewer._calculate_function_complexity (src/paila/reviewer.py lines
381-399): identical to analyzerPoints except that Assert statements are
not counted. -/
def reviewerPoints : PyKind → Nat
  | .ifStmt => 1
  | .ifExp => 1
  | .forStmt => 1
  | .asyncFor => 1
  | .whileStmt => 1
  | .exceptHandler => 1
  | .withStmt => 1
  | .asyncWith => 1
  | .boolOp n => n - 1
  | .comprehension k => k
  | _ => 0

/-- ComplexityAnalyzer._calculate_complexity: start at 1 and add the
contribution of every walked node. -/
def calculateComplexity (n : PyNode) : Nat :=
  (walk n).foldl (fun c m => c + analyzerPoints m.kind) 1

/-- Reviewer._calculate_function_complexity: start at 1 and add the
contribution of every walked node (no Assert case in the source). -/
def reviewerFunctionComplexity (n : PyNode) : Nat :=
  (walk n).foldl (fun c m => c + reviewerPoints m.kind) 1

/-- Number of Assert nodes in the subtree of a node, as an indicator sum. -/
def assertCount (n : PyNode) : Nat :=
  ((walk n).map (fun m => if m.kind = .assertStmt then 1 else 0)).sum

/-- Modelled from the claim wording, for comparison with the source: a
decision point is a conditional, a loop, an exception handler, a
context-block entry, one extra point per additional operand of a
boolean-operator chain, one per comprehension filter clause, and one per
assertion. -/
def claimDecisionPoints (n : PyNode) : Nat :=
  ((walk n).map (fun m => analyzerPoints m.kind)).sum

/-- Node kinds that increase nesting depth in
ComplexityAnalyzer._calculate_nesting_depth (lines 225-230): If, For,
AsyncFor, While, With, AsyncWith, Try, FunctionDef, AsyncFunctionDef,
ClassDef. ExceptHandler and IfExp are not among them. -/
def PyKind.isNesting : PyKind → Bool
  | .ifStmt => true
  | .forStmt => true
  | .asyncFor => true
  | .whileStmt => true
  | .withStmt => true
  | .asyncWith => true
  | .tryStmt => true
  | .functionDef _ => true
  | .asyncFunctionDef _ => true
  | .classDef _ _ _ => true
  | _ => false

mutual
/-- get_depth of ComplexityAnalyzer._calculate_nesting_depth: maximum over
children, entering a nesting node at depth + 1. -/
def getDepth : PyNode → Nat → Nat
  | .node _ cs, cur => getDepthAll cs cur

/-- Maximum of get_depth over a list of children at the current depth
(the loop in _calculate_nesting_depth, starting from current_depth). -/
def getDepthAll : List PyNode → Nat → Nat
  | [], cur => cur
  | c :: cs, cur =>
    max (if c.kind.isNesting then getDepth c (cur + 1) else getDepth c cur)
      (getDepthAll cs cur)
end

/-- ComplexityAnalyzer._calculate_nesting_depth entry point. -/
def calculateNestingDepth (n : PyNode) : Nat :=
  getDepth n 0

/-- ComplexityAnalyzer._count_function_lines (lines 243-259): end_lineno -
lineno + 1, minus the docstring span when body[0] is a string-constant
expression whose end_lineno is truthy. -/
def countFunctionLines (f : PyFuncInfo) : Int :=
  match f.endLineno with
  | none => 0
  | some e =>
    let total : Int := (e : Int) - (f.lineno : Int) + 1
    match f.docstringSpan with
    | some (dl, some de) =>
      if de ≠ 0 then total - ((de : Int) - (dl : Int) + 1) else total
    | _ => total

/-- ComplexityAnalyzer._get_params_str (lines 261-280). -/
def getParamsStr (a : PyArguments) : String :=
  let params := a.args
    ++ (match a.vararg with | some v => ["*" ++ v] | none => [])
    ++ a.kwonlyargs
    ++ (match a.kwarg with | some k => ["**" ++ k] | none => [])
  if params.length > 3 then
    String.intercalate ", " (params.take 3) ++ ", ..."
  else
    String.intercalate ", " params

/-- The parameter count computed by ComplexityAnalyzer._analyze_function
(lines 123-128): len(args.args) + len(args.kwonlyargs), plus one each for
a present *args and **kwargs. Positional-only parameters are not read. -/
def countedParams (a : PyArguments) : Nat :=
  a.args.length + a.kwonlyargs.length +
    (if a.vararg.isSome then 1 else 0) + (if a.kwarg.isSome then 1 else 0)

/-- Modelled from the claim wording, for comparison with the source:
positional parameters (positional-only plus positional-or-keyword) plus
keyword-only parameters plus one per variadic marker present. -/
def claimParamCount (a : PyArguments) : Nat :=
  (a.posonlyargs.length + a.args.length) + a.kwonlyargs.length +
    (if a.vararg.isSome then 1 else 0) + (if a.kwarg.isSome then 1 else 0)

/-- ComplexityAnalyzer._analyze_function (lines 66-144): the four threshold
checks on one function node, in source order (complexity, nesting depth,
function length, parameter count), each contributing one issue when its
threshold is exceeded. -/
def analyzeFunction (cfg : Config) (n : PyNode) (info : PyFuncInfo)
    (filePath : String) : List Issue :=
  let complexity := calculateComplexity n
  let complexityIssues : List Issue :=
    if complexity > cfg.maxComplexity then
      [{ type := "high_complexity",
         severity := if complexity ≤ 15 then Severity.medium else Severity.high,
         file := filePath,
         line := info.lineno,
         column := info.colOffset,
         message := "Function \x27" ++ info.name ++
           "\x27 has cyclomatic complexity of " ++ toString complexity ++
           " (max: " ++ toString cfg.maxComplexity ++ ")",
         code := "def " ++ info.name ++ "(" ++ getParamsStr info.args ++ "):",
         suggestion := "Consider breaking this function into smaller, more focused functions",
         rule := "complexity/high-complexity",
         metadata := [("complexity", .nat complexity), ("function", .str info.name)] }]
    else []
  let nesting := calculateNestingDepth n
  let nestingIssues : List Issue :=
    if nesting > cfg.maxNestingDepth then
      [{ type := "deep_nesting",
         severity := Severity.medium,
         file := filePath,
         line := info.lineno,
         column := info.colOffset,
         message := "Function \x27" ++ info.name ++ "\x27 has nesting depth of " ++
           toString nesting ++ " (max: " ++ toString cfg.maxNestingDepth ++ ")",
         code := "def " ++ info.name ++ "(...):",
         suggestion := "Extract nested logic into separate functions or use early returns",
         rule := "complexity/deep-nesting",
         metadata := [("nesting_depth", .nat nesting), ("function", .str info.name)] }]
    else []
  let funcLines := countFunctionLines info
  let lengthIssues : List Issue :=
    if funcLines > (cfg.maxFunctionLines : Int) then
      [{ type := "long_function",
         severity := Severity.low,
         file := filePath,
         line := info.lineno,
         column := info.colOffset,
         message := "Function \x27" ++ info.name ++ "\x27 has " ++
           toString funcLines ++ " lines (max: " ++ toString cfg.maxFunctionLines ++ ")",
         code := "def " ++ info.name ++ "(...):",
         suggestion := "Break this function into smaller, single-purpose functions",
         rule := "complexity/long-function",
         metadata := [("lines", .nat funcLines.toNat), ("function", .str info.name)] }]
    else []
  let paramCount := countedParams info.args
  let paramIssues : List Issue :=
    if paramCount > cfg.maxParameters then
      [{ type := "too_many_params",
         severity := Severity.low,
         file := filePath,
         line := info.lineno,
         column := info.colOffset,
         message := "Function \x27" ++ info.name ++ "\x27 has " ++
           toString paramCount ++ " parameters (max: " ++ toString cfg.maxParameters ++ ")",
         code := "def " ++ info.name ++ "(" ++ getParamsStr info.args ++ "):",
         suggestion := "Consider using a configuration object or breaking into smaller functions",
         rule := "complexity/too-many-params",
         metadata := [("param_count", .nat paramCount), ("function", .str info.name)] }]
    else []
  complexityIssues ++ nestingIssues ++ lengthIssues ++ paramIssues

theorem foldl_add_eq (f : PyNode → Nat) (l : List PyNode) (c : Nat) :
    l.foldl (fun acc m => acc + f m) c = c + (l.map f).sum := by
  induction l generalizing c with
  | nil => simp
  | cons x xs ih =>
    simp only [List.foldl_cons, List.map_cons, List.sum_cons, ih]
    omega

theorem sum_map_points_split (l : List PyNode) :
    (l.map (fun m => reviewerPoints m.kind)).sum +
      (l.map (fun m => if m.kind = .assertStmt then 1 else 0)).sum =
      (l.map (fun m => analyzerPoints m.kind)).sum := by
  induction l with
  | nil => simp
  | cons x xs ih =>
    simp only [List.map_cons, List.sum_cons]
    have hx : reviewerPoints x.kind + (if x.kind = .assertStmt then 1 else 0) =
        analyzerPoints x.kind := by
      cases h : x.kind <;> simp [reviewerPoints, analyzerPoints]
    omega

/-- Example function node containing a single assert statement: in Python,
the tree of `def f(): assert x`. -/
def assertFuncNode : PyNode :=
  .node (.functionDef { name := "f" }) [.node .assertStmt []]

/-- C5 counterexample: on a function whose body is a single assert
statement, the checker complexity is 2 (1 + the assertion decision point,
as the claim demands) but the complexity used by the orchestrator for
Metrics is 1, so the two are not equal and the orchestrator value is not
1 + decision points. -/
theorem complexity_refinement_counterexample :
    calculateComplexity assertFuncNode = 2 ∧
    1 + claimDecisionPoints assertFuncNode = 2 ∧
    reviewerFunctionComplexity assertFuncNode = 1 ∧
    reviewerFunctionComplexity assertFuncNode ≠ calculateComplexity assertFuncNode := by
  refine ⟨rfl, rfl, rfl, ?_⟩
  decide

/-- C5 amended: the checker complexity equals 1 plus the count of decision
points of the claim (assertions included); the orchestrator complexity used
for Metrics counts the same decision points except assertions, so checker
and orchestrator agree exactly on functions whose subtree contains no
assert statement. -/
theorem complexity_refinement_amended (n : PyNode) :
    calculateComplexity n = 1 + claimDecisionPoints n ∧
    reviewerFunctionComplexity n + assertCount n = calculateComplexity n ∧
    (assertCount n = 0 → reviewerFunctionComplexity n = calculateComplexity n) := by
  have h1 : calculateComplexity n = 1 + claimDecisionPoints n := by
    unfold calculateComplexity claimDecisionPoints
    rw [foldl_add_eq]
  have h2 : reviewerFunctionComplexity n + assertCount n = calculateComplexity n := by
    unfold calculateComplexity reviewerFunctionComplexity assertCount
    rw [foldl_add_eq, foldl_add_eq]
    have := sum_map_points_split (walk n)
    omega
  exact ⟨h1, h2, fun h0 => by omega⟩

/-- Example function node with one if statement: the tree of
`def g(): if x: pass` restricted to the kinds the analysis reads. -/
def ifFuncNode : PyNode :=
  .node (.functionDef { name := "g" }) [.node .ifStmt [.node .other []]]

/-- C5 witness: the amended theorem applied to a concrete assert-free
function node, discharging the no-assert hypothesis by evaluation. -/
theorem complexity_refinement_amended_witness :
    reviewerFunctionComplexity ifFuncNode = calculateComplexity ifFuncNode :=
  (complexity_refinement_amended ifFuncNode).2.2 (by decide)

/-- C7 counterexample: for the Python function `def f(a, /, b): ...` (one
positional-only and one positional-or-keyword parameter) with
max_parameters = 1, the claim count (positional + keyword-only + variadic)
is 2 > 1, yet the analyzer emits no too_many_params issue, because the
source counts only args.args and args.kwonlyargs and ignores
args.posonlyargs. -/
theorem paramCount_counterexample :
    claimParamCount { posonlyargs := ["a"], args := ["b"] } = 2 ∧
    countedParams { posonlyargs := ["a"], args := ["b"] } = 1 ∧
    (analyzeFunction { maxParameters := 1 }
        (.node (.functionDef { name := "f", args := { posonlyargs := ["a"], args := ["b"] } }) [])
        { name := "f", args := { posonlyargs := ["a"], args := ["b"] } }
        "t.py").countP (fun i => i.type == "too_many_params") = 0 := by
  refine ⟨rfl, rfl, ?_⟩
  rfl

/-- C7 amended: the parameter count checked against max_parameters equals
the number of positional-or-keyword parameters plus keyword-only
parameters plus one per variadic marker (positional-only parameters are
not counted), and _analyze_function emits exactly one too_many_params
issue when that count exceeds max_parameters and none otherwise. -/
theorem tooManyParams_emitted_iff (cfg : Config) (n : PyNode)
    (info : PyFuncInfo) (path : String) :
    countedParams info.args = info.args.args.length + info.args.kwonlyargs.length +
      (if info.args.vararg.isSome then 1 else 0) +
      (if info.args.kwarg.isSome then 1 else 0) ∧
    (analyzeFunction cfg n info path).countP (fun i => i.type == "too_many_params") =
      (if countedParams info.args > cfg.maxParameters then 1 else 0) := by
  refine ⟨rfl, ?_⟩
  unfold analyzeFunction
  simp only [List.countP_append]
  repeat' split
  all_goals simp [List.countP_cons, List.countP_nil]

/-- Split a character list on a separator character; Python
text.split(sep) semantics: n separators yield n + 1 parts. Defined
structurally so that concrete instances evaluate inside the kernel. -/
def splitOnChar (sep : Char) : List Char → List (List Char)
  | [] => [[]]
  | c :: cs =>
    let rest := splitOnChar sep cs
    if c = sep then [] :: rest
    else
      match rest with
      | [] => [[c]]
      | r :: rs => (c :: r) :: rs

/-- Python code.split(chr(10)): the list of lines of a text. -/
def pyLines (s : String) : List String :=
  (splitOnChar '\n' s.data).map (fun cs => ⟨cs⟩)

/-- Whether one character list is an initial segment of another. -/
def startsWithChars : List Char → List Char → Bool
  | [], _ => true
  | _ :: _, [] => false
  | n :: ns, h :: hs => n = h && startsWithChars ns hs

/-- Python s.startswith(t), defined structurally. -/
def strStartsWith (s t : String) : Bool :=
  startsWithChars t.data s.data

/-- Python str whitespace for str.strip(): space, tab, newline, carriage
return, vertical tab, form feed. -/
def pyWhitespace (c : Char) : Bool :=
  c = ' ' || c = '\t' || c = '\n' || c = '\r' || c = '\x0b' || c = '\x0c'

/-- Python line.strip(): remove leading and trailing whitespace. -/
def pyStrip (s : String) : String :=
  ⟨((s.data.dropWhile pyWhitespace).reverse.dropWhile pyWhitespace).reverse⟩

/-- Kinds counted as functions by the metrics walk (FunctionDef and
AsyncFunctionDef). -/
def PyKind.isFunctionLike : PyKind → Bool
  | .functionDef _ => true
  | .asyncFunctionDef _ => true
  | _ => false

/-- Kinds counted as classes by the metrics walk. -/
def PyKind.isClassLike : PyKind → Bool
  | .classDef _ _ _ => true
  | _ => false

/-- Reviewer._calculate_metrics (src/paila/reviewer.py lines 337-379): line
counts from the raw text, function/class counts and per-function
complexities from the tree when one exists. The single Python walk loop
that interleaves the function and class counters is rendered as two
filters over the same walk; the resulting counts and value lists are the
same. -/
def calculateMetrics (code : String) (tree : Option PyNode) : Metrics :=
  let lines := pyLines code
  let totalLines := lines.length
  let blankLines := (lines.filter (fun l => pyStrip l = "")).length
  let commentLines := (lines.filter (fun l => strStartsWith (pyStrip l) "#")).length
  let codeLines := totalLines - blankLines - commentLines
  let functionNodes : List PyNode := match tree with
    | none => []
    | some t => (walk t).filter (fun m => m.kind.isFunctionLike)
  let functions := functionNodes.length
  let classes := match tree with
    | none => 0
    | some t => ((walk t).filter (fun m => m.kind.isClassLike)).length
  let complexityValues := functionNodes.map reviewerFunctionComplexity
  let avgComplexity : ℚ :=
    if complexityValues.isEmpty then 0
    else (complexityValues.map (fun v => (v : ℚ))).sum / (complexityValues.length : ℚ)
  let maxComplexity := complexityValues.foldr max 0
  { linesOfCode := codeLines,
    totalLines := totalLines,
    blankLines := blankLines,
    commentLines := commentLines,
    functions := functions,
    classes := classes,
    avgComplexity := roundTo2 avgComplexity,
    maxComplexity := maxComplexity }

/-- The shared prelude of every built-in analyzer analyze method
(complexity.py lines 44-49, security.py lines 94-99, smells.py lines
54-60): when no tree is passed, parse the code with
BaseAnalyzer.parse_code; when no tree results, return the empty issue list
without running any detector; otherwise run the analyzer body on the tree.
The body may itself raise, modelled by Except. -/
def analyzerAnalyze (body : String → String → PyNode → Except String (List Issue))
    (parse : String → Option PyNode) (code filePath : String)
    (tree : Option PyNode) : Except String (List Issue) :=
  match tree with
  | some t => body code filePath t
  | none =>
    match parse code with
    | none => .ok []
    | some t => body code filePath t

/-- Reviewer.review_code (src/paila/reviewer.py lines 90-129): parse once,
run every analyzer against the shared tree, catch a raising analyzer so it
contributes no issues, filter each analyzer result by the minimum
severity, and compute metrics from the same tree. -/
def reviewCode (cfg : Config) (parse : String → Option PyNode)
    (analyzers : List (String → String → Option PyNode → Except String (List Issue)))
    (code filePath : String) : FileResult :=
  let tree := parse code
  let issues := analyzers.foldl (fun acc a =>
    match a code filePath tree with
    | .ok analyzerIssues => acc ++ filterBySeverity cfg.minSeverity analyzerIssues
    | .error _ => acc) []
  { file := filePath,
    issues := issues,
    metrics := some (calculateMetrics code tree) }

theorem roundTo2_zero : roundTo2 0 = 0 := by
  unfold roundTo2
  norm_num

theorem reviewCode_foldl_empty (cfg : Config) (parse : String → Option PyNode)
    (bodies : List (String → String → PyNode → Except String (List Issue)))
    (code filePath : String) (h : parse code = none) (acc : List Issue) :
    (bodies.map (fun b => analyzerAnalyze b parse)).foldl (fun acc a =>
      match a code filePath none with
      | .ok analyzerIssues => acc ++ filterBySeverity cfg.minSeverity analyzerIssues
      | .error _ => acc) acc = acc := by
  induction bodies generalizing acc with
  | nil => rfl
  | cons b bs ih =>
    simp only [List.map_cons, List.foldl_cons]
    rw [show analyzerAnalyze b parse code filePath none = .ok [] by
      unfold analyzerAnalyze
      rw [h]]
    simpa [filterBySeverity] using ih _

/-- C1: review_code always returns a FileResult (failing checkers are
caught and contribute nothing, so the virtual path is always carried
through and no error is stored), and when parsing fails every checker
built on the shared analyzer prelude yields empty issues, with Metrics
computed from the raw lines only: the line counts, zero functions, zero
classes, zero complexity. -/
theorem reviewCode_never_raises_and_degrades (cfg : Config)
    (parse : String → Option PyNode)
    (bodies : List (String → String → PyNode → Except String (List Issue)))
    (code filePath : String)
    (h : parse code = none) :
    (∀ analyzers, (reviewCode cfg parse analyzers code filePath).file = filePath ∧
      (reviewCode cfg parse analyzers code filePath).error = none ∧
      (reviewCode cfg parse analyzers code filePath).skipped = false) ∧
    reviewCode cfg parse (bodies.map (fun b => analyzerAnalyze b parse)) code filePath =
      { file := filePath, issues := [], metrics := some (calculateMetrics code none) } ∧
    calculateMetrics code none =
      { linesOfCode := (pyLines code).length -
          ((pyLines code).filter (fun l => pyStrip l = "")).length -
          ((pyLines code).filter (fun l => strStartsWith (pyStrip l) "#")).length,
        totalLines := (pyLines code).length,
        blankLines := ((pyLines code).filter (fun l => pyStrip l = "")).length,
        commentLines := ((pyLines code).filter (fun l => strStartsWith (pyStrip l) "#")).length,
        functions := 0,
        classes := 0,
        avgComplexity := 0,
        maxComplexity := 0 } := by
  refine ⟨fun analyzers => ⟨rfl, rfl, rfl⟩, ?_, ?_⟩
  · unfold reviewCode
    simp only [h]
    rw [reviewCode_foldl_empty cfg parse bodies code filePath h []]
  · unfold calculateMetrics
    simp [roundTo2_zero]

/-- C1 witness: the theorem applied to a parser that fails on the concrete
input, with no analyzers beyond the prelude. -/
theorem reviewCode_never_raises_and_degrades_witness :
    reviewCode {} (fun _ => none) [] "x = (" "t.py" =
      { file := "t.py", issues := [], metrics := some (calculateMetrics "x = (" none) } :=
  (reviewCode_never_raises_and_degrades {} (fun _ => none) [] "x = (" "t.py" rfl).2.1

/-- ReviewResult dataclass (src/paila/models.py lines 257-271) restricted
to the fields the analysis core fills. Counting dicts are modelled as
total functions defaulting to 0, the file-to-issues dict as a function
into Option; Python dict equality ignores insertion order, so function
equality is the faithful notion. The wall-clock timestamp and duration
fields are not modelled. -/
structure ReviewResult where
  files : List FileResult := []
  totalIssues : Nat := 0
  issuesBySeverity : String → Nat := fun _ => 0
  issuesByType : String → Nat := fun _ => 0
  issuesByFile : String → Option (List Issue) := fun _ => none
  metrics : Option Metrics := none

/-- Python counter-dict update d[k] = d.get(k, 0) + 1. -/
def dictBump (m : String → Nat) (k : String) : String → Nat :=
  fun x => if x = k then m k + 1 else m x

/-- Python dict assignment d[k] = v on a dict of issue lists. -/
def dictSet (m : String → Option (List Issue)) (k : String)
    (v : List Issue) : String → Option (List Issue) :=
  fun x => if x = k then some v else m x

/-- Reviewer._aggregate_results (src/paila/reviewer.py lines 401-463):
skipped results are dropped; issues are concatenated in result order; the
per-file dict maps each non-skipped file to its issue list (a later
duplicate path overwrites an earlier one); severity and type counters run
over the concatenated issues; metric sums run over the non-skipped results
that carry metrics. -/
def aggregateResults (fileResults : List FileResult) : ReviewResult :=
  let nonSkipped := fileResults.filter (fun r => !r.skipped)
  let allIssues := nonSkipped.foldl (fun acc r => acc ++ r.issues) []
  let issuesByFile := nonSkipped.foldl (fun m r => dictSet m r.file r.issues)
    (fun _ => none)
  let metricsList := nonSkipped.filterMap (fun r => r.metrics)
  let totalLines := (metricsList.map (fun m => m.totalLines)).sum
  let totalCodeLines := (metricsList.map (fun m => m.linesOfCode)).sum
  let totalFunctions := (metricsList.map (fun m => m.functions)).sum
  let totalClasses := (metricsList.map (fun m => m.classes)).sum
  let complexityValues := (metricsList.filter (fun m => m.avgComplexity > 0)).map
    (fun m => m.avgComplexity)
  let issuesBySeverity := allIssues.foldl (fun m i => dictBump m i.severity.value)
    (fun _ => 0)
  let issuesByType := allIssues.foldl (fun m i => dictBump m i.type) (fun _ => 0)
  let avgComplexity : ℚ :=
    if complexityValues.isEmpty then 0
    else complexityValues.sum / (complexityValues.length : ℚ)
  { files := fileResults,
    totalIssues := allIssues.length,
    issuesBySeverity := issuesBySeverity,
    issuesByType := issuesByType,
    issuesByFile := issuesByFile,
    metrics := some { linesOfCode := totalCodeLines,
                      totalLines := totalLines,
                      functions := totalFunctions,
                      classes := totalClasses,
                      avgComplexity := roundTo2 avgComplexity } }

theorem foldl_append_eq (l : List FileResult) (acc : List Issue) :
    l.foldl (fun a r => a ++ r.issues) acc = acc ++ (l.map FileResult.issues).flatten := by
  induction l generalizing acc with
  | nil => simp
  | cons r rs ih =>
    simp only [List.foldl_cons, List.map_cons, List.flatten_cons, ih,
      List.append_assoc]

theorem foldl_dictBump_eq {α : Type} (key : α → String) (l : List α)
    (m0 : String → Nat) (k : String) :
    (l.foldl (fun m i => dictBump m (key i)) m0) k =
      m0 k + l.countP (fun i => key i == k) := by
  induction l generalizing m0 with
  | nil => simp
  | cons i is ih =>
    simp only [List.foldl_cons, ih, List.countP_cons]
    unfold dictBump
    by_cases hk : k = key i
    · subst hk
      simp only [if_pos rfl, beq_self_eq_true, if_true]
      omega
    · have hbeq : (key i == k) = false := by
        simp only [beq_eq_false_iff_ne, ne_eq]
        exact fun hE => hk hE.symm
      simp [if_neg hk, hbeq]

theorem foldl_dictSet_nodup (l : List FileResult)
    (hnd : (l.map FileResult.file).Nodup)
    (m0 : String → Option (List Issue)) (k : String) :
    (l.foldl (fun m r => dictSet m r.file r.issues) m0) k =
      (match l.find? (fun r => r.file == k) with
       | some r => some r.issues
       | none => m0 k) := by
  induction l generalizing m0 with
  | nil => simp
  | cons r rs ih =>
    simp only [List.map_cons, List.nodup_cons] at hnd
    obtain ⟨hNotIn, hndTail⟩ := hnd
    rw [List.foldl_cons, ih hndTail]
    by_cases hk : r.file = k
    · have hbeq : (r.file == k) = true := by simpa using hk
      have hfind : rs.find? (fun x => x.file == k) = none := by
        rw [List.find?_eq_none]
        intro x hx hxk
        apply hNotIn
        have hxf : x.file = k := by simpa using hxk
        rw [hk, ← hxf]
        exact List.mem_map_of_mem FileResult.file hx
      rw [hfind, List.find?_cons, hbeq]
      simp [dictSet, hk]
    · have hbeq : (r.file == k) = false := by simpa using hk
      rw [List.find?_cons, hbeq]
      cases hfind : rs.find? (fun x => x.file == k) with
      | some rp => rfl
      | none =>
        simp only [dictSet]
        rw [if_neg (fun h => hk h.symm)]

theorem find?_file_of_mem (l : List FileResult)
    (hnd : (l.map FileResult.file).Nodup) (r : FileResult) (hr : r ∈ l) :
    l.find? (fun x => x.file == r.file) = some r := by
  induction l with
  | nil => cases hr
  | cons x xs ih =>
    simp only [List.map_cons, List.nodup_cons] at hnd
    obtain ⟨hNotIn, hndTail⟩ := hnd
    rcases List.mem_cons.mp hr with hEq | hMem
    · subst hEq
      rw [List.find?_cons, show (r.file == r.file) = true by simp]
    · have hxne : (x.file == r.file) = false := by
        simp only [beq_eq_false_iff_ne, ne_eq]
        intro hE
        apply hNotIn
        rw [hE]
        exact List.mem_map_of_mem FileResult.file hMem
      rw [List.find?_cons, hxne]
      exact ih hndTail hMem

theorem find?_file_perm (L Lp : List FileResult) (h : L.Perm Lp)
    (hnd : (L.map FileResult.file).Nodup) (k : String) :
    L.find? (fun r => r.file == k) = Lp.find? (fun r => r.file == k) := by
  have hndp : (Lp.map FileResult.file).Nodup := ((h.map FileResult.file).nodup_iff).mp hnd
  cases hL : L.find? (fun r => r.file == k) with
  | none =>
    have hnone : ∀ x ∈ Lp, ¬ ((fun r => r.file == k) x = true) := by
      intro x hx
      exact List.find?_eq_none.mp hL x (h.mem_iff.mpr hx)
    rw [List.find?_eq_none.mpr hnone]
  | some r =>
    have hp := List.find?_some hL
    have hmem : r ∈ Lp := h.mem_iff.mp (List.mem_of_find?_eq_some hL)
    have hk : r.file = k := by simpa using hp
    rw [← hk, find?_file_of_mem Lp hndp r hmem]

/-- Concrete issue used by the counterexamples below. -/
def issueA : Issue :=
  { type := "magic_number", severity := .low, file := "a.py", line := 1,
    message := "m" }

/-- A FileResult for a.py with one issue. -/
def frA1 : FileResult := { file := "a.py", issues := [issueA] }

/-- A second FileResult for the same path a.py with no issues. -/
def frA2 : FileResult := { file := "a.py", issues := [] }

/-- C3 counterexample: _aggregate_results applied to a permutation of the
same FileResult list can change the per-file issue map when two results
carry the same file path (the later one overwrites the earlier one), so
the claim quantified over all permutations of all lists of FileResults is
false as stated. -/
theorem aggregate_not_perm_invariant_as_stated :
    [frA1, frA2].Perm [frA2, frA1] ∧
    (aggregateResults [frA1, frA2]).issuesByFile "a.py" = some [] ∧
    (aggregateResults [frA2, frA1]).issuesByFile "a.py" = some [issueA] ∧
    (aggregateResults [frA1, frA2]).issuesByFile ≠
      (aggregateResults [frA2, frA1]).issuesByFile := by
  refine ⟨List.Perm.swap _ _ _, rfl, rfl, fun hEq => ?_⟩
  have hPt := congrFun hEq "a.py"
  rw [show (aggregateResults [frA1, frA2]).issuesByFile "a.py" = some [] from rfl,
    show (aggregateResults [frA2, frA1]).issuesByFile "a.py" = some [issueA] from rfl]
    at hPt
  simp at hPt

/-- C3 amended: _aggregate_results applied to any permutation of a list of
FileResults yields the same total_issues, issues_by_severity and
issues_by_type; the per-file issue map is also permutation-invariant
whenever the non-skipped results have pairwise distinct file paths, which
always holds for the inputs review_directory produces (one result per
collected file). Hence reviewDirectory with parallel completion order
observes the same four fields as the sequential order. -/
theorem aggregate_perm_invariant (L Lp : List FileResult) (h : L.Perm Lp) :
    (aggregateResults L).totalIssues = (aggregateResults Lp).totalIssues ∧
    (aggregateResults L).issuesBySeverity = (aggregateResults Lp).issuesBySeverity ∧
    (aggregateResults L).issuesByType = (aggregateResults Lp).issuesByType ∧
    (((L.filter (fun r => !r.skipped)).map FileResult.file).Nodup →
      (aggregateResults L).issuesByFile = (aggregateResults Lp).issuesByFile) := by
  have hNS : (L.filter (fun r => !r.skipped)).Perm (Lp.filter (fun r => !r.skipped)) :=
    h.filter _
  refine ⟨?_, ?_, ?_, ?_⟩
  · show (List.foldl _ [] _).length = (List.foldl _ [] _).length
    rw [foldl_append_eq, foldl_append_eq]
    simp only [List.nil_append, List.length_flatten]
    exact ((hNS.map FileResult.issues).map List.length).sum_eq
  · funext k
    show (List.foldl _ (fun _ => 0) _) k = (List.foldl _ (fun _ => 0) _) k
    rw [show (List.foldl (fun m i => dictBump m i.severity.value)) =
      (List.foldl (fun m i => dictBump m ((fun j : Issue => j.severity.value) i))) from rfl,
      foldl_dictBump_eq, foldl_dictBump_eq, foldl_append_eq, foldl_append_eq]
    simp only [List.nil_append, List.countP_flatten, List.map_map]
    congr 1
    exact (hNS.map _).sum_eq
  · funext k
    show (List.foldl _ (fun _ => 0) _) k = (List.foldl _ (fun _ => 0) _) k
    rw [show (List.foldl (fun m i => dictBump m i.type)) =
      (List.foldl (fun m i => dictBump m ((fun j : Issue => j.type) i))) from rfl,
      foldl_dictBump_eq, foldl_dictBump_eq, foldl_append_eq, foldl_append_eq]
    simp only [List.nil_append, List.countP_flatten, List.map_map]
    congr 1
    exact (hNS.map _).sum_eq
  · intro hnd
    funext k
    show (List.foldl _ (fun _ => none) _) k = (List.foldl _ (fun _ => none) _) k
    rw [foldl_dictSet_nodup _ hnd, foldl_dictSet_nodup _
      (((hNS.map FileResult.file).nodup_iff).mp hnd),
      find?_file_perm _ _ hNS hnd k]

/-- C3 witness: the amended theorem applied to a concrete two-element swap
with distinct file paths, discharging the permutation and distinctness
hypotheses by construction and evaluation. -/
theorem aggregate_perm_invariant_witness :
    (aggregateResults
        [{ file := "a.py", issues := [] }, { file := "b.py", issues := [] }]).totalIssues =
      (aggregateResults
        [{ file := "b.py", issues := [] }, { file := "a.py", issues := [] }]).totalIssues ∧
    (aggregateResults
        [{ file := "a.py", issues := [] }, { file := "b.py", issues := [] }]).issuesByFile =
      (aggregateResults
        [{ file := "b.py", issues := [] }, { file := "a.py", issues := [] }]).issuesByFile := by
  have h := aggregate_perm_invariant
    [{ file := "a.py", issues := [] }, { file := "b.py", issues := [] }]
    [{ file := "b.py", issues := [] }, { file := "a.py", issues := [] }]
    (List.Perm.swap _ _ _)
  exact ⟨h.1, h.2.2.2 (by decide)⟩

/-- Rule dataclass (src/paila/rules/base.py lines 17-65). The checker
callable may raise, modelled with Except; the config dict is not read by
any code under verification and is omitted. -/
structure Rule where
  id : String
  name : String := ""
  description : String := ""
  severity : Severity := .low
  category : String := "custom"
  checker : String → String → Option PyNode → Except String (List Issue)
  enabled : Bool := true
  tags : List String := []

/-- Rule.check (src/paila/rules/base.py lines 42-62): a disabled rule
returns no issues without running its checker; an enabled rule runs the
checker, which may raise. -/
def Rule.check (r : Rule) (code filePath : String) (tree : Option PyNode) :
    Except String (List Issue) :=
  if !r.enabled then .ok [] else r.checker code filePath tree

/-- RuleSet (src/paila/rules/base.py lines 68-165): the id-to-Rule dict is
modelled by its insertion-ordered value list. -/
structure RuleSet where
  name : String := "default"
  rules : List Rule := []

/-- RuleSet.enabled_rules (lines 116-119). -/
def RuleSet.enabledRules (s : RuleSet) : List Rule :=
  s.rules.filter (fun r => r.enabled)

/-- RuleSet.check_all (lines 129-156): iterate the enabled rules in order,
extend the result list with each successful check, and swallow a raising
rule so the remaining rules still run. -/
def RuleSet.checkAll (s : RuleSet) (code filePath : String)
    (tree : Option PyNode) : List Issue :=
  s.enabledRules.foldl (fun acc r =>
    match r.check code filePath tree with
    | .ok ruleIssues => acc ++ ruleIssues
    | .error _ => acc) []

/-- RuleSet.check_all paired with the list of diagnostics the source
stores for failed rules. The except branch of check_all is a bare pass
(lines 152-154), so the failure branch appends nothing to the record
component; the pair makes that absence of recording provable. -/
def RuleSet.checkAllRecorded (s : RuleSet) (code filePath : String)
    (tree : Option PyNode) : List Issue × List String :=
  s.enabledRules.foldl (fun acc r =>
    match r.check code filePath tree with
    | .ok ruleIssues => (acc.1 ++ ruleIssues, acc.2)
    | .error _ => (acc.1, acc.2)) ([], [])

theorem checkAll_foldl_eq (code filePath : String) (tree : Option PyNode)
    (l : List Rule) (acc : List Issue) :
    l.foldl (fun a r =>
      match r.check code filePath tree with
      | .ok ruleIssues => a ++ ruleIssues
      | .error _ => a) acc =
    acc ++ (l.map (fun r =>
      match r.check code filePath tree with
      | .ok ruleIssues => ruleIssues
      | .error _ => [])).flatten := by
  induction l generalizing acc with
  | nil => simp
  | cons r rs ih =>
    simp only [List.foldl_cons, List.map_cons, List.flatten_cons, ih]
    cases r.check code filePath tree <;> simp [List.append_assoc]

theorem checkAllRecorded_foldl_snd (code filePath : String)
    (tree : Option PyNode) (l : List Rule) (acc : List Issue × List String) :
    (l.foldl (fun a r =>
      match r.check code filePath tree with
      | .ok ruleIssues => (a.1 ++ ruleIssues, a.2)
      | .error _ => (a.1, a.2)) acc).2 = acc.2 := by
  induction l generalizing acc with
  | nil => rfl
  | cons r rs ih =>
    simp only [List.foldl_cons]
    cases r.check code filePath tree <;> exact ih _

/-- An always-raising enabled rule, for the counterexample. -/
def failingRule : Rule :=
  { id := "boom", checker := fun _ _ _ => .error "boom" }

/-- An enabled rule returning one issue, for the witnesses. -/
def okRule : Rule :=
  { id := "ok", checker := fun _ _ _ => .ok [issueA] }

/-- C9 counterexample: a rule set whose single enabled rule raises yields
no issues, and the record of stored failure diagnostics is empty: the
except branch of check_all is a bare pass, so the failure is swallowed but
not recorded anywhere. -/
theorem checkAll_failure_not_recorded :
    failingRule.check "" "" none = .error "boom" ∧
    RuleSet.checkAllRecorded { rules := [failingRule] } "" "" none = ([], []) :=
  ⟨rfl, rfl⟩

/-- C9 amended: check_all returns the concatenation, in rule order, of the
issues of exactly the enabled rules, where a raising rule contributes no
issues; the failure is silently discarded (nothing is recorded), not
propagated, and removing a raising rule from the set leaves the result of
every other rule unchanged. -/
theorem checkAll_amended (s : RuleSet) (code filePath : String)
    (tree : Option PyNode) :
    s.checkAll code filePath tree =
      (s.enabledRules.map (fun r =>
        match r.check code filePath tree with
        | .ok ruleIssues => ruleIssues
        | .error _ => [])).flatten ∧
    (∀ pre post bad e, bad.check code filePath tree = .error e →
      RuleSet.checkAll { name := s.name, rules := pre ++ bad :: post }
          code filePath tree =
        RuleSet.checkAll { name := s.name, rules := pre ++ post }
          code filePath tree) ∧
    (RuleSet.checkAllRecorded s code filePath tree).2 = [] := by
  refine ⟨?_, ?_, ?_⟩
  · unfold RuleSet.checkAll
    rw [checkAll_foldl_eq]
    rfl
  · intro pre post bad e hbad
    have hen : bad.enabled = true := by
      by_contra hne
      have : bad.check code filePath tree = .ok [] := by
        unfold Rule.check
        simp [Bool.not_eq_true] at hne
        simp [hne]
      rw [this] at hbad
      cases hbad
    unfold RuleSet.checkAll RuleSet.enabledRules
    rw [checkAll_foldl_eq, checkAll_foldl_eq]
    simp only [List.filter_append, List.filter_cons, hen, if_true,
      List.map_append, List.map_cons, List.flatten_append, List.flatten_cons,
      hbad, List.nil_append]
  · unfold RuleSet.checkAllRecorded
    rw [checkAllRecorded_foldl_snd]

/-- C9 witness: the amended theorem applied to a concrete set, removing a
concrete raising rule in front of a succeeding rule, discharging the
failure hypothesis by evaluation. -/
theorem checkAll_amended_witness :
    RuleSet.checkAll { rules := [failingRule, okRule] } "" "" none =
      RuleSet.checkAll { rules := [okRule] } "" "" none :=
  (checkAll_amended { rules := [okRule] } "" "" none).2.1 [] [okRule]
    failingRule "boom" rfl

/-- Occurrence of a character list as a contiguous segment of another;
Python `needle in haystack` on strings. -/
def occursIn (needle : List Char) : List Char → Bool
  | [] => needle.isEmpty
  | h :: hs => startsWithChars needle (h :: hs) || occursIn needle hs

/-- Python `pattern in path` substring containment. -/
def strContainsSub (hay needle : String) : Bool :=
  occursIn needle.data hay.data

/-- The final component of a path (pathlib PurePath.name): the last
non-empty slash-separated component. -/
def pathName (path : String) : String :=
  match ((splitOnChar '/' path.data).filter (fun c => ¬ c.isEmpty)).getLast? with
  | some c => ⟨c⟩
  | none => ""

/-- pathlib PurePath.suffix: the extension of the final component, from
its last dot, empty when the dot is the first or last character. -/
def pathSuffix (path : String) : String :=
  let cs := (pathName path).data
  if cs.contains '.' then
    let afterLen := (cs.reverse.takeWhile (fun c => c ≠ '.')).length
    let i := cs.length - 1 - afterLen
    if 0 < i ∧ 1 ≤ afterLen then
      ⟨'.' :: (cs.reverse.take afterLen).reverse⟩
    else ""
  else ""

/-- Python str.lower restricted to the character-wise mapping. -/
def strToLower (s : String) : String :=
  ⟨s.data.map Char.toLower⟩

/-- Scan the body of a glob character class: consume up to and including
the closing bracket, returning the accumulated class characters and the
rest of the pattern; none when the class is never closed (fnmatch then
treats the opening bracket as a literal character). -/
def scanClassEnd (acc : List Char) : List Char → Option (List Char × List Char)
  | [] => none
  | c :: rest =>
    if c = ']' then some (acc.reverse, rest)
    else scanClassEnd (c :: acc) rest

/-- Parse a glob character class directly after the opening bracket: an
optional negation mark, then a first character that is part of the class
even when it is a closing bracket, then the remaining class characters. -/
def splitClass : List Char → Option (Bool × List Char × List Char)
  | '!' :: c :: rest => (scanClassEnd [c] rest).map (fun br => (true, br.1, br.2))
  | c :: rest => (scanClassEnd [c] rest).map (fun br => (false, br.1, br.2))
  | [] => none

theorem scanClassEnd_length (l : List Char) (acc b r : List Char)
    (h : scanClassEnd acc l = some (b, r)) : r.length < l.length := by
  induction l generalizing acc with
  | nil => cases h
  | cons c rest ih =>
    unfold scanClassEnd at h
    by_cases hc : c = ']'
    · rw [if_pos hc] at h
      cases h
      simp
    · rw [if_neg hc] at h
      have := ih _ h
      simp only [List.length_cons]
      omega

theorem splitClass_length (cs : List Char) (neg : Bool) (b r : List Char)
    (h : splitClass cs = some (neg, b, r)) : r.length < cs.length := by
  unfold splitClass at h
  split at h
  · rename_i c rest
    cases hscan : scanClassEnd [c] rest with
    | none => rw [hscan] at h; cases h
    | some br =>
      rw [hscan] at h
      cases h
      have := scanClassEnd_length rest [c] br.1 br.2 (by rw [hscan])
      simp only [List.length_cons]
      omega
  · rename_i c rest _
    cases hscan : scanClassEnd [c] rest with
    | none => rw [hscan] at h; cases h
    | some br =>
      rw [hscan] at h
      cases h
      have := scanClassEnd_length rest [c] br.1 br.2 (by rw [hscan])
      simp only [List.length_cons]
      omega
  · cases h

/-- Membership of a character in a glob class body, with ranges. -/
def classMatches (c : Char) : List Char → Bool
  | a :: '-' :: b :: rest => (a ≤ c && c ≤ b) || classMatches c rest
  | a :: rest => (c = a) || classMatches c rest
  | [] => false

/-- The token stream a glob pattern compiles to (fnmatch.translate
compiles the pattern once before matching). -/
inductive GlobTok where
  | star
  | qmark
  | cls (neg : Bool) (body : List Char)
  | lit (c : Char)

/-- Compile a glob pattern to tokens: star and question wildcards, closed
character classes, and literal characters (an unclosed class bracket is a
literal). -/
def globTokens : List Char → List GlobTok
  | [] => []
  | '*' :: ps => .star :: globTokens ps
  | '?' :: ps => .qmark :: globTokens ps
  | '[' :: ps =>
    match hsplit : splitClass ps with
    | some (neg, body, rest) => .cls neg body :: globTokens rest
    | none => .lit '[' :: globTokens ps
  | c :: ps => .lit c :: globTokens ps
termination_by ps => ps.length
decreasing_by
  all_goals simp_wf
  all_goals try omega
  have := splitClass_length _ _ _ _ hsplit
  omega

/-- Match a compiled glob token stream against a whole string (fnmatch
anchors the pattern at both ends). -/
def globMatch : List GlobTok → List Char → Bool
  | [], s => s.isEmpty
  | .star :: ts, s =>
    globMatch ts s ||
      (match s with
       | [] => false
       | _ :: sRest => globMatch (.star :: ts) sRest)
  | .qmark :: ts, s =>
    (match s with
     | [] => false
     | _ :: sRest => globMatch ts sRest)
  | .cls neg body :: ts, s =>
    (match s with
     | [] => false
     | c :: sRest =>
       (if neg then !(classMatches c body) else classMatches c body) &&
         globMatch ts sRest)
  | .lit p :: ts, s =>
    (match s with
     | [] => false
     | c :: sRest => (p = c) && globMatch ts sRest)
termination_by ts s => (ts.length, s.length)

/-- fnmatch.fnmatchcase of one path component against one glob pattern
component. -/
def fnmatchCase (s pattern : String) : Bool :=
  globMatch (globTokens pattern.data) s.data

/-- pathlib PurePath.match with a relative pattern: the pattern components
are matched right-aligned against the trailing path components, each by
fnmatch; a pattern with more components than the path never matches. -/
def pathMatch (path pattern : String) : Bool :=
  let patParts := (splitOnChar '/' pattern.data).filter (fun c => ¬ c.isEmpty)
  let pathParts := (splitOnChar '/' path.data).filter (fun c => ¬ c.isEmpty)
  if patParts.isEmpty then false
  else if pathParts.length < patParts.length then false
  else ((pathParts.drop (pathParts.length - patParts.length)).zip patParts).all
    (fun pc => globMatch (globTokens pc.2) pc.1)

/-- Reviewer._should_analyze_file (src/paila/reviewer.py lines 261-279):
lowercased extension must be .py or .pyi, no configured ignore-path may
occur as a substring of the path, and no configured ignore-file glob may
match the path. -/
def shouldAnalyzeFile (cfg : Config) (path : String) : Bool :=
  if ¬ (strToLower (pathSuffix path) = ".py" ∨
      strToLower (pathSuffix path) = ".pyi") then false
  else if cfg.ignorePaths.any (fun pat => strContainsSub path pat) then false
  else if cfg.ignoreFiles.any (fun pat => pathMatch path pat) then false
  else true

/-- The filesystem operations the orchestrator consumes: existence and
directory tests, text reading, and the glob enumeration of Python files
used by _collect_files for a directory and a recursion flag. Reading
models the read_text attempt of review_file lines 154-157 with its
utf-8/latin-1 decode fallback folded in: a decode failure never escapes
(latin-1 accepts every byte sequence), but an OS-level failure such as a
permission error still raises, modelled by the error case. -/
structure FS where
  pathExists : String → Bool
  isDir : String → Bool
  read : String → Except String String
  globPy : String → Bool → List String

/-- Reviewer.review_file (src/paila/reviewer.py lines 131-160): a missing
path raises FileNotFoundError; a path rejected by _should_analyze_file
yields a skipped FileResult with empty issues and default Metrics without
reading the file; otherwise the file is read - only UnicodeDecodeError is
caught around read_text, so an OS-level read failure propagates out of
review_file - and the text is reviewed as code. -/
def reviewFile (cfg : Config) (parse : String → Option PyNode)
    (analyzers : List (String → String → Option PyNode → Except String (List Issue)))
    (fs : FS) (filePath : String) : Except String FileResult :=
  if ¬ fs.pathExists filePath then
    .error ("File not found: " ++ filePath)
  else if ¬ shouldAnalyzeFile cfg filePath then
    .ok { file := filePath, issues := [], metrics := some {}, skipped := true }
  else
    match fs.read filePath with
    | .error e => .error e
    | .ok code => .ok (reviewCode cfg parse analyzers code filePath)

/-- Insertion into an ascending list of strings. -/
def insertSorted (x : String) : List String → List String
  | [] => [x]
  | y :: ys => if x ≤ y then x :: y :: ys else y :: insertSorted x ys

/-- Python sorted(files) on path strings (insertion sort; equal keys are
identical strings, so stability is moot). -/
def sortStrings (l : List String) : List String :=
  l.foldr insertSorted []

/-- Reviewer._collect_files (lines 281-298): glob the directory for
Python files, keep those passing _should_analyze_file, sorted. -/
def collectFiles (cfg : Config) (fs : FS) (dir : String)
    (recursive : Bool) : List String :=
  sortStrings ((fs.globPy dir recursive).filter (shouldAnalyzeFile cfg))

/-- Reviewer._process_sequential (lines 300-310): review each file in
order; a file whose review raises is recorded nowhere and dropped. -/
def processSequential (cfg : Config) (parse : String → Option PyNode)
    (analyzers : List (String → String → Option PyNode → Except String (List Issue)))
    (fs : FS) (files : List String) : List FileResult :=
  files.foldl (fun acc f =>
    match reviewFile cfg parse analyzers fs f with
    | .ok r => acc ++ [r]
    | .error _ => acc) []

/-- Reviewer.review_directory (lines 162-209): a missing path and an
existing non-directory path both raise NotADirectoryError before any
analysis; no collected files yields the empty ReviewResult; otherwise the
files are processed (the sequential path is modelled; the parallel path
differs only in result order, which the aggregation permutation theorem
covers) and aggregated. -/
def reviewDirectory (cfg : Config) (parse : String → Option PyNode)
    (analyzers : List (String → String → Option PyNode → Except String (List Issue)))
    (fs : FS) (dir : String) (recursive : Bool) : Except String ReviewResult :=
  if ¬ fs.pathExists dir then .error ("Directory not found: " ++ dir)
  else if ¬ fs.isDir dir then .error ("Not a directory: " ++ dir)
  else
    let files := collectFiles cfg fs dir recursive
    if files.isEmpty then
      .ok { files := [], totalIssues := 0 }
    else
      .ok (aggregateResults (processSequential cfg parse analyzers fs files))

/-- Success test on an Except value. -/
def exceptOk {ε α : Type} : Except ε α → Bool
  | .ok _ => true
  | .error _ => false

/-- A filesystem in which every path exists, none is a directory, and
every read succeeds with an empty text. -/
def fsAllFiles : FS :=
  { pathExists := fun _ => true, isDir := fun _ => false,
    read := fun _ => .ok "", globPy := fun _ _ => [] }

/-- A filesystem in which every path exists, none is a directory, and
every read fails with a permission error. -/
def fsDenied : FS :=
  { pathExists := fun _ => true, isDir := fun _ => false,
    read := fun _ => .error "Permission denied", globPy := fun _ _ => [] }

/-- A valid configuration with no ignore patterns, so that the skip test
on a concrete path evaluates without glob matching. -/
def cfgNoIgnores : Config := { ignorePaths := [], ignoreFiles := [] }

/-- C8 counterexample: review_directory on an existing path that is not a
directory raises NotADirectoryError, and review_file on an existing but
unreadable Python file propagates the read failure (review_file catches
only UnicodeDecodeError around read_text), so a review does not return a
result object for every existing target path, and raising is not limited
to non-existent paths. -/
theorem review_raises_on_existing_nondirectory :
    fsAllFiles.pathExists "a.py" = true ∧
    reviewDirectory {} (fun _ => none) [] fsAllFiles "a.py" true =
      .error "Not a directory: a.py" ∧
    fsDenied.pathExists "a.py" = true ∧
    reviewFile cfgNoIgnores (fun _ => none) [] fsDenied "a.py" =
      .error "Permission denied" :=
  ⟨rfl, rfl, rfl, rfl⟩

/-- C8 amended: review_file raises before any analysis exactly when the
target path does not exist or when an existing, non-skipped file fails to
read (an OS-level read failure propagates verbatim, since only
UnicodeDecodeError is caught); it returns a FileResult for an existing
path iff the path is filtered out (skipped) or its read succeeds.
review_directory returns a ReviewResult exactly for existing directory
paths, raising before any analysis both for a missing path and for an
existing path that is not a directory; a per-file read failure inside the
directory walk is caught by _process_sequential and never makes
review_directory raise. -/
theorem review_ok_iff_amended (cfg : Config) (parse : String → Option PyNode)
    (analyzers : List (String → String → Option PyNode → Except String (List Issue)))
    (fs : FS) (filePath dir : String) (recursive : Bool) :
    exceptOk (reviewFile cfg parse analyzers fs filePath) =
      (fs.pathExists filePath &&
        (!shouldAnalyzeFile cfg filePath || exceptOk (fs.read filePath))) ∧
    (∀ e, fs.pathExists filePath = true → shouldAnalyzeFile cfg filePath = true →
      fs.read filePath = .error e →
      reviewFile cfg parse analyzers fs filePath = .error e) ∧
    exceptOk (reviewDirectory cfg parse analyzers fs dir recursive) =
      (fs.pathExists dir && fs.isDir dir) := by
  refine ⟨?_, ?_, ?_⟩
  · unfold reviewFile
    cases hE : fs.pathExists filePath <;>
      by_cases hS : shouldAnalyzeFile cfg filePath <;>
        cases hR : fs.read filePath <;>
          simp [hE, hS, hR, exceptOk]
  · intro e hE hS hR
    unfold reviewFile
    simp [hE, hS, hR]
  · unfold reviewDirectory
    cases hE : fs.pathExists dir <;> cases hD : fs.isDir dir <;>
      by_cases hF : (collectFiles cfg fs dir recursive).isEmpty <;>
        simp [hE, hD, hF, exceptOk]

/-- C8 witness: the amended theorem applied to a concrete existing,
analyzable but unreadable file, discharging the existence, skip-test and
read-failure hypotheses by evaluation. -/
theorem review_ok_iff_amended_witness :
    reviewFile cfgNoIgnores (fun _ => none) [] fsDenied "a.py" =
      .error "Permission denied" :=
  (review_ok_iff_amended cfgNoIgnores (fun _ => none) [] fsDenied "a.py"
      "d" true).2.1 "Permission denied" rfl (by decide) rfl

/-- C10: review_file on an existing path whose lowercased extension is not
.py or .pyi, or whose path string contains a configured ignore-path
substring, or which matches a configured ignore-file glob, returns a
skipped FileResult with empty issues, no error and default Metrics; the
parser, the checkers and the file contents are arbitrary in the statement,
so the result is produced without reading the file or running any
checker. -/
theorem reviewFile_skips_filtered (cfg : Config) (parse : String → Option PyNode)
    (analyzers : List (String → String → Option PyNode → Except String (List Issue)))
    (fs : FS) (filePath : String)
    (hE : fs.pathExists filePath = true)
    (hCond : ¬ (strToLower (pathSuffix filePath) = ".py" ∨
        strToLower (pathSuffix filePath) = ".pyi") ∨
      (∃ pat ∈ cfg.ignorePaths, strContainsSub filePath pat = true) ∨
      (∃ pat ∈ cfg.ignoreFiles, pathMatch filePath pat = true)) :
    reviewFile cfg parse analyzers fs filePath =
      .ok { file := filePath, issues := [], metrics := some {},
            skipped := true, error := none } := by
  have hS : shouldAnalyzeFile cfg filePath = false := by
    unfold shouldAnalyzeFile
    split
    · rfl
    · split
      · rfl
      · split
        · rfl
        · rename_i g1 g2 g3
          exfalso
          rcases hCond with h1 | h2 | h3
          · exact g1 h1
          · exact g2 (List.any_eq_true.mpr h2)
          · exact g3 (List.any_eq_true.mpr h3)
  unfold reviewFile
  simp [hE, hS]

/-- C10 witness: the theorem applied to a concrete existing text file with
the default configuration, discharging both hypotheses by evaluation. -/
theorem reviewFile_skips_filtered_witness :
    reviewFile {} (fun _ => none) [] fsAllFiles "notes.txt" =
      .ok { file := "notes.txt", issues := [], metrics := some {},
            skipped := true, error := none } :=
  reviewFile_skips_filtered {} (fun _ => none) [] fsAllFiles "notes.txt" rfl
    (Or.inl (by decide))

/-- The two quote characters excluded by the secret-masking regex classes
(double quote and apostrophe). -/
def isQuoteChar (c : Char) : Bool := c = '"' || c = '\x27'

mutual
/-- SecurityAnalyzer._mask_secret (src/paila/analyzers/security.py lines
486-494) as a left-to-right scan equivalent to the re.sub of the source:
the pattern is a quote, four non-quote characters, a greedy run of
non-quote characters, two non-quote characters and the matching closing
quote, replaced by the quote, the first four characters of the quoted run,
four asterisks, the last two characters and the quote. A match attempt can
only start at a quote character; it succeeds exactly when the following
non-quote run has length at least six and is closed by the same quote
(every attempt inside the run fails at its first character, so the next
viable attempt starts at the closing quote); scanning resumes after a
replaced match. -/
def maskOut : List Char → List Char
  | [] => []
  | c :: rest => if isQuoteChar c then maskIn c [] rest else c :: maskOut rest

/-- Scanner state inside a match candidate opened by the quote q, with the
non-quote run accumulated in reverse. On the closing quote the candidate
either succeeds (same quote, run of length at least six) and is replaced,
or fails, in which case the candidate text is emitted unchanged and the
closing quote opens the next candidate. An unclosed candidate at the end
of the input is emitted unchanged. -/
def maskIn (q : Char) (run : List Char) : List Char → List Char
  | [] => q :: run.reverse
  | c :: rest =>
    if isQuoteChar c then
      if c = q ∧ 6 ≤ run.length then
        q :: (run.reverse.take 4 ++ ['*', '*', '*', '*'] ++
          run.reverse.drop (run.length - 2)) ++ c :: maskOut rest
      else (q :: run.reverse) ++ maskIn c [] rest
    else maskIn q (c :: run) rest
end

/-- String wrapper of the secret-masking scan. -/
def maskSecret (line : String) : String :=
  ⟨maskOut line.data⟩

/-- Placeholder markers that suppress a hardcoded-secret report
(security.py lines 231-234), tested as substrings of the lowercased
line. -/
def placeholderMarkers : List String :=
  ["example", "xxx", "your_", "changeme", "placeholder", "<", ">"]

/-- The placeholder suppression test of _check_hardcoded_secrets. -/
def isPlaceholderLine (line : String) : Bool :=
  placeholderMarkers.any (fun m => strContainsSub (strToLower line) m)

/-- The per-line body of SecurityAnalyzer._check_hardcoded_secrets
(security.py lines 220-250) over enumerated lines: skip comment lines;
report at most one issue per line, for the first matching secret pattern,
unless the line carries a placeholder marker; the reported snippet is the
masked stripped line. The compiled SECRET_PATTERNS searches are abstracted
as predicates paired with their descriptions. -/
def checkSecretsLines (patterns : List ((String → Bool) × String))
    (filePath : String) : Nat → List String → List Issue
  | _, [] => []
  | i, line :: rest =>
    (if strStartsWith (pyStrip line) "#" then []
     else
       match patterns.find? (fun p => p.1 line) with
       | some p =>
         if isPlaceholderLine line then []
         else
           [{ type := "hardcoded_secret",
              severity := Severity.high,
              file := filePath,
              line := i,
              column := 0,
              message := "Potential " ++ p.2 ++ " found",
              code := maskSecret (pyStrip line),
              suggestion := "Use environment variables or a secrets manager instead of hardcoding secrets",
              rule := "security/hardcoded-secret",
              metadata := [("secret_type", .str p.2)] }]
       | none => []) ++ checkSecretsLines patterns filePath (i + 1) rest

/-- SecurityAnalyzer._check_hardcoded_secrets entry point: enumerate the
lines of the code from one. -/
def checkHardcodedSecrets (patterns : List ((String → Bool) × String))
    (code filePath : String) : List Issue :=
  checkSecretsLines patterns filePath 1 (pyLines code)

/-- Python regex whitespace class. -/
def isRegexSpace (c : Char) : Bool :=
  c = ' ' || c = '\t' || c = '\n' || c = '\r' || c = '\x0b' || c = '\x0c'

/-- Match of the first SECRET_PATTERNS regex (a password assignment to a
quoted literal) at the head of a character list, case-insensitively: the
word password, optional whitespace, an equals sign, optional whitespace, a
quote, at least one non-quote character, and a quote. -/
def matchPasswordAt (cs : List Char) : Bool :=
  if startsWithChars "password".data (cs.map Char.toLower) then
    match (cs.drop 8).dropWhile isRegexSpace with
    | '=' :: rest3 =>
      (match rest3.dropWhile isRegexSpace with
       | q :: rest5 =>
         isQuoteChar q &&
           (match rest5.dropWhile (fun c => ¬ isQuoteChar c) with
            | q2 :: _ =>
              isQuoteChar q2 &&
                decide (1 ≤ (rest5.takeWhile (fun c => ¬ isQuoteChar c)).length)
            | [] => false)
       | [] => false)
    | _ => false
  else false

/-- Whether a predicate on character lists holds on some suffix. -/
def anySuffix (p : List Char → Bool) : List Char → Bool
  | [] => p []
  | c :: cs => p (c :: cs) || anySuffix p cs

/-- re.search of the password-assignment secret pattern: a match may start
at any position of the line. -/
def matchesPasswordAssign (s : String) : Bool :=
  anySuffix matchPasswordAt s.data

/-- Modelled from the claim wording, for comparison with the source: mask
a quoted literal by keeping its first two and last two characters and
replacing the remainder with asterisks. -/
def claimMask (run : List Char) : List Char :=
  run.take 2 ++ List.replicate (run.length - 4) '*' ++ run.drop (run.length - 2)

/-- C6 counterexample: on the line `password = "secret123"` the hardcoded
secret checker reports the snippet with the literal masked as secr****23 -
the first four characters kept and a fixed four asterisks - while the
claim mandates keeping the first two and last two characters and
replacing the remainder, which gives se*****23; the two snippets differ. -/
theorem maskSecret_counterexample :
    (checkHardcodedSecrets [(matchesPasswordAssign, "hardcoded password")]
        "password = \"secret123\"" "t.py").map (fun i => i.code) =
      ["password = \"secr****23\""] ∧
    maskSecret "password = \"secret123\"" = "password = \"secr****23\"" ∧
    ('"' :: claimMask "secret123".data ++ ['"']) = "\"se*****23\"".data ∧
    ("password = \"secr****23\"" : String) ≠ "password = \"se*****23\"" := by
  refine ⟨?_, rfl, rfl, ?_⟩ <;> decide

theorem maskOut_nonquote (pre : List Char)
    (hpre : ∀ c ∈ pre, isQuoteChar c = false) (rest : List Char) :
    maskOut (pre ++ rest) = pre ++ maskOut rest := by
  induction pre with
  | nil => simp
  | cons c cs ih =>
    have hc : isQuoteChar c = false := hpre c (List.mem_cons_self c cs)
    simp only [List.cons_append]
    rw [maskOut, if_neg (by simp [hc]), ih (fun x hx => hpre x (List.mem_cons_of_mem c hx))]

theorem maskIn_accum (q : Char) (run : List Char)
    (hrun : ∀ c ∈ run, isQuoteChar c = false) (acc rest : List Char) :
    maskIn q acc (run ++ rest) = maskIn q (run.reverse ++ acc) rest := by
  induction run generalizing acc with
  | nil => simp
  | cons c cs ih =>
    have hc : isQuoteChar c = false := hrun c (List.mem_cons_self c cs)
    simp only [List.cons_append]
    rw [maskIn, if_neg (by simp [hc]),
      ih (fun x hx => hrun x (List.mem_cons_of_mem c hx)) (c :: acc)]
    simp

theorem checkSecretsLines_code (patterns : List ((String → Bool) × String))
    (filePath : String) (lines : List String) (start : Nat) (i : Issue)
    (hi : i ∈ checkSecretsLines patterns filePath start lines) :
    ∃ line ∈ lines, strStartsWith (pyStrip line) "#" = false ∧
      i.code = maskSecret (pyStrip line) := by
  induction lines generalizing start with
  | nil => cases hi
  | cons line rest ih =>
    rw [checkSecretsLines] at hi
    rcases List.mem_append.mp hi with hHead | hTail
    · refine ⟨line, List.mem_cons_self _ _, ?_⟩
      by_cases hComment : strStartsWith (pyStrip line) "#"
      · rw [if_pos hComment] at hHead; cases hHead
      · rw [if_neg hComment] at hHead
        refine ⟨by simpa using hComment, ?_⟩
        cases hfind : patterns.find? (fun p => p.1 line) with
        | none => rw [hfind] at hHead; cases hHead
        | some p =>
          rw [hfind] at hHead
          dsimp only at hHead
          by_cases hPl : isPlaceholderLine line
          · rw [if_pos hPl] at hHead; cases hHead
          · rw [if_neg hPl] at hHead
            rcases List.mem_singleton.mp hHead with rfl
            rfl
    · obtain ⟨l2, hl2, hrest⟩ := ih (start + 1) hTail
      exact ⟨l2, List.mem_cons_of_mem _ hl2, hrest⟩

/-- C6 amended: every hardcoded-secret issue carries as its snippet the
masked stripped source line, and the mask keeps the first four and the
last two characters of a quoted run of length at least six, replacing the
middle with exactly four asterisks; a quoted run shorter than six
characters is left unmasked, with scanning restarting at its closing
quote. -/
theorem maskSecret_amended :
    (∀ patterns code filePath i,
      i ∈ checkHardcodedSecrets patterns code filePath →
      ∃ line ∈ pyLines code, strStartsWith (pyStrip line) "#" = false ∧
        i.code = maskSecret (pyStrip line)) ∧
    (∀ pre q run suf, (∀ c ∈ pre, isQuoteChar c = false) →
      isQuoteChar q = true → (∀ c ∈ run, isQuoteChar c = false) →
      6 ≤ run.length →
      maskOut (pre ++ q :: run ++ q :: suf) =
        pre ++ q :: (run.take 4 ++ ['*', '*', '*', '*'] ++
          run.drop (run.length - 2)) ++ q :: maskOut suf) ∧
    (∀ pre q run suf, (∀ c ∈ pre, isQuoteChar c = false) →
      isQuoteChar q = true → (∀ c ∈ run, isQuoteChar c = false) →
      run.length < 6 →
      maskOut (pre ++ q :: run ++ q :: suf) =
        pre ++ q :: run ++ maskOut (q :: suf)) := by
  refine ⟨?_, ?_, ?_⟩
  · intro patterns code filePath i hi
    exact checkSecretsLines_code patterns filePath (pyLines code) 1 i hi
  · intro pre q run suf hpre hq hrun hlen
    have h1 : pre ++ q :: run ++ q :: suf = pre ++ (q :: (run ++ q :: suf)) := by
      simp
    rw [h1, maskOut_nonquote pre hpre, maskOut, if_pos hq,
      maskIn_accum q run hrun [] (q :: suf), maskIn, if_pos hq]
    simp only [List.append_nil, List.length_reverse, List.reverse_reverse]
    rw [if_pos ⟨trivial, hlen⟩]
    simp [List.append_assoc]
  · intro pre q run suf hpre hq hrun hlen
    have h1 : pre ++ q :: run ++ q :: suf = pre ++ (q :: (run ++ q :: suf)) := by
      simp
    rw [h1, maskOut_nonquote pre hpre, maskOut, if_pos hq,
      maskIn_accum q run hrun [] (q :: suf), maskIn, if_pos hq]
    simp only [List.append_nil, List.length_reverse, List.reverse_reverse]
    rw [if_neg (by rintro ⟨-, h6⟩; omega),
      show maskOut (q :: suf) = maskIn q [] suf by rw [maskOut, if_pos hq]]
    simp [List.append_assoc]

/-- C6 witness: the amended mask characterization applied to the concrete
line `password = "secret123"`, discharging every hypothesis by
evaluation. -/
theorem maskSecret_amended_witness :
    maskSecret "password = \"secret123\"" = "password = \"secr****23\"" := by
  have h := maskSecret_amended.2.1 "password = ".data '"' "secret123".data []
    (by decide) (by decide) (by decide) (by decide)
  exact congrArg String.mk h

end Paila
